import Mathlib

/-!
# Verification of the ipx subnet-collapsing library

Shallow embedding of `collapse.go` (package `ipx`): the `Collapse`
subnet-merging engine, the typed network representations `ip4Net` / `ip6Net`,
and the peripheral utilities `Supernet` and `Broadcast`.

Machine integers are modelled as `Nat` with explicit reduction modulo
`2 ^ 32` (Go `uint32`), `2 ^ 128` (the repository's `uint128` two-word type)
and `2 ^ 8` / `2 ^ 64` where Go's `uint8` / `uint` arithmetic wraps.
Go's shift semantics (`x << k` on an n-bit unsigned value is `x * 2 ^ k`
truncated to n bits, yielding `0` once `k ≥ n`) are modelled the same way.

Go's `map` has an unspecified (randomized) iteration order.  The engine's
final `for _, v := range supers` is therefore modelled by keeping the map as
an insertion-ordered association list and parameterizing the collapse
function over an enumeration function `g`; every `g` producing a permutation
of the stored values is an admissible run of the compiled program, and
`collapse4` fixes the canonical choice `g = id` (insertion order).

The work loop of the engine is not structurally recursive (a sibling merge
pushes the promoted parent back onto the stack), so it is written with an
explicit fuel argument; the fuel supplied by `collapse4With` is far larger
than the number of iterations any input of the given length can cause, and
the invariant theorems below hold for every fuel value.
-/

namespace Ipx

/-- `2 ^ 32`, the modulus of Go `uint32` arithmetic. -/
def w32 : Nat := 2 ^ 32

/-- `2 ^ 128`, the modulus of the repository's `uint128` arithmetic. -/
def w128 : Nat := 2 ^ 128

/-- Go `uint32` value of `1 << k` (zero once `k ≥ 32`). -/
def bit32 (k : Nat) : Nat := 2 ^ k % w32

/-- Go `uint32` left shift `x << k`. -/
def shl32 (x k : Nat) : Nat := x * 2 ^ k % w32

/-- Go `uint32` subtraction of one: `x - 1` wrapping at zero. -/
def dec32 (x : Nat) : Nat := (x % w32 + w32 - 1) % w32

/-- Typed IPv4 network of `collapse.go`: `ip4Net{addr uint32, prefix uint8}`.
The Go field `prefix` is called `plen` here. -/
structure ip4Net where
  addr : Nat
  plen : Nat
deriving DecidableEq

/-- Shift amount `32 - n.prefix` computed in Go `uint8` arithmetic
(wraps modulo 256; e.g. it is `33` when the prefix has wrapped to `255`). -/
def shiftAmt4 (plen : Nat) : Nat := (288 - plen % 256) % 256

/-- `ip4Net.super` from `collapse.go`:
`n.addr &^= 1 << (32 - n.prefix); n.prefix--`.
`&^ b` is bitwise AND NOT, i.e. AND with the `uint32` complement of `b`;
the `uint8` decrement of the prefix wraps modulo 256. -/
def ip4Net.super (n : ip4Net) : ip4Net :=
  { addr := n.addr &&& ((w32 - 1) ^^^ bit32 (shiftAmt4 n.plen)),
    plen := (n.plen + 255) % 256 }

/-- `ip4Net.mask` from `collapse.go`: `^(1<<(32-n.prefix) - 1)` in `uint32`. -/
def ip4Net.mask (n : ip4Net) : Nat :=
  (w32 - 1) ^^^ dec32 (bit32 (shiftAmt4 n.plen))

/-- Association-list model of the Go map `supers`: lookup by key. -/
def alistFind {α : Type} [DecidableEq α] (m : List (α × α)) (k : α) : Option α :=
  (m.find? (fun p => decide (p.1 = k))).map (fun p => p.2)

/-- Association-list model of the Go map `supers`: `delete(supers, k)`. -/
def alistErase {α : Type} [DecidableEq α] (m : List (α × α)) (k : α) : List (α × α) :=
  m.filter (fun p => decide (p.1 ≠ k))

/-- The work loop of `collapse4` (`collapse.go` lines 33–50), with explicit
fuel.  The stack is a `List` popped at the head (`collapse4With` reverses the
converted input so that head-popping matches Go's pop-from-the-end), and the
map is an insertion-ordered association list.  Each iteration pops `n`,
computes `s := n.super()`, and either records `supers[s] = n`, skips an exact
duplicate, or — on finding a sibling — deletes the claim at `s` and pushes
`s` back onto the stack. -/
def collapse4Loop : Nat → List ip4Net → List (ip4Net × ip4Net) → List (ip4Net × ip4Net)
  | 0, _, m => m
  | _ + 1, [], m => m
  | fuel + 1, n :: rest, m =>
    let s := n.super
    match alistFind m s with
    | none => collapse4Loop fuel rest (m ++ [(s, n)])
    | some other =>
      if other = n then collapse4Loop fuel rest m
      else collapse4Loop fuel (s :: rest) (alistErase m s)

/-- The final coalescing pass of `collapse4` (`collapse.go` lines 58–67):
walking the sorted survivors, drop any entry whose address masked by the last
kept entry's mask equals the last kept entry's (unmasked) address. -/
def coalesce4 (lastMask lastAddr : Nat) : List ip4Net → List ip4Net
  | [] => []
  | m :: rest =>
    if lastAddr = m.addr &&& lastMask then coalesce4 lastMask lastAddr rest
    else m :: coalesce4 m.mask m.addr rest

/-- The result assembly of `collapse4` (`collapse.go` lines 58–67):
`result` starts with `merged[0]` and the coalescing pass walks `merged[1:]`.
(`merged[0]` cannot be reached with an empty `merged`: `collapse4` is only
called on non-empty input, which always leaves the map non-empty; the empty
case is mapped to the empty output.)  `sort.Sort(ip4Nets(...))` sorts by
ascending `addr` only; for the short slices involved Go's sort performs a
stable insertion sort, modelled by `List.insertionSort`. -/
def runCoalesce4 : List ip4Net → List ip4Net
  | [] => []
  | h :: t => h :: coalesce4 h.mask h.addr t

/-- `collapse4` on the typed representation, parameterized by the map
enumeration order `g` (see the module comment). -/
def collapse4With (g : List ip4Net → List ip4Net) (inp : List ip4Net) : List ip4Net :=
  let m := collapse4Loop (300 * inp.length + 300) inp.reverse []
  runCoalesce4 (List.insertionSort (fun a b => a.addr ≤ b.addr) (g (m.map (fun p => p.2))))

/-- The canonical run of `collapse4`: map enumeration in insertion order. -/
def collapse4 : List ip4Net → List ip4Net := collapse4With id

/-- Address coverage of an IPv4 typed network: `x` lies in the range
described by the network's masked base address. -/
def covers4 (n : ip4Net) (x : Nat) : Bool :=
  decide (x &&& n.mask = n.addr &&& n.mask)

/-- An address is covered by some network of the list. -/
def coversAny4 (l : List ip4Net) (x : Nat) : Bool := l.any (fun n => covers4 n x)

/-! ## The `uint128` arithmetic type

The `uint128` two-word type (`Lsh`, `Minus`, `And`, `Or`, `Not`, `Cmp`) and
the byte conversions `to32` / `from32` / `to128` / `from128` are used by
`collapse.go` but their defining file is not part of the sources given; they
are modelled from the spec (§4.1, §4.2): an immutable 128-bit unsigned value
whose operations are pure and return new values, with correct carry / borrow
propagation across the two halves — i.e. standard arithmetic modulo
`2 ^ 128`, here on `Nat`. -/

/-- Modelled from the spec: `uint128.Lsh`, logical left shift, bits shifted
out are discarded (zero once the shift reaches 128 bits). -/
def lsh128 (x k : Nat) : Nat := if 128 ≤ k then 0 else x * 2 ^ k % w128

/-- Modelled from the spec: `uint128.Not`, inverting all 128 bits. -/
def not128 (x : Nat) : Nat := x % w128 ^^^ (w128 - 1)

/-- Modelled from the spec: `uint128` subtraction with borrow across the
half boundary, i.e. subtraction modulo `2 ^ 128`. -/
def minus128 (a b : Nat) : Nat := (a % w128 + w128 - b % w128) % w128

/-- Modelled from the spec: `uint128.And`. -/
def and128 (a b : Nat) : Nat := a &&& b

/-- Modelled from the spec: `uint128.Or`. -/
def or128 (a b : Nat) : Nat := a ||| b

/-- Go `uint` (64-bit) subtraction, used for the expression
`128 - uint(n.prefix)`: wraps modulo `2 ^ 64`. -/
def sub64 (a b : Nat) : Nat := (a % 2 ^ 64 + 2 ^ 64 - b % 2 ^ 64) % 2 ^ 64

/-- Typed IPv6 network of `collapse.go`: `ip6Net{addr uint128, prefix uint8}`. -/
structure ip6Net where
  addr : Nat
  plen : Nat
deriving DecidableEq

/-- `ip6Net.super` from `collapse.go`:
`n.addr = n.addr.And(uint128{0, 1}.Lsh(128 - uint(n.prefix)).Not()); n.prefix--`. -/
def ip6Net.super (n : ip6Net) : ip6Net :=
  { addr := and128 n.addr (not128 (lsh128 1 (sub64 128 (n.plen % 256)))),
    plen := (n.plen + 255) % 256 }

/-- `ip6Net.mask` from `collapse.go`:
`uint128{0, 1}.Lsh(128 - uint(n.prefix)).Minus(uint128{0, 1}).Not()`. -/
def ip6Net.mask (n : ip6Net) : Nat :=
  not128 (minus128 (lsh128 1 (sub64 128 (n.plen % 256))) 1)

/-- The work loop of `collapse6` (`collapse.go` lines 78–95), the exact
mirror of `collapse4Loop` on the IPv6 typed representation. -/
def collapse6Loop : Nat → List ip6Net → List (ip6Net × ip6Net) → List (ip6Net × ip6Net)
  | 0, _, m => m
  | _ + 1, [], m => m
  | fuel + 1, n :: rest, m =>
    let s := n.super
    match alistFind m s with
    | none => collapse6Loop fuel rest (m ++ [(s, n)])
    | some other =>
      if other = n then collapse6Loop fuel rest m
      else collapse6Loop fuel (s :: rest) (alistErase m s)

/-- The final coalescing pass of `collapse6` (`collapse.go` lines 103–112):
the drop test is `lastAddr == m.addr.And(lastMask)`. -/
def coalesce6 (lastMask lastAddr : Nat) : List ip6Net → List ip6Net
  | [] => []
  | m :: rest =>
    if lastAddr = and128 m.addr lastMask then coalesce6 lastMask lastAddr rest
    else m :: coalesce6 m.mask m.addr rest

/-- The result assembly of `collapse6` (`collapse.go` lines 103–112);
`ip6Nets.Less` compares with `addr.Cmp == -1`, i.e. the sort is by
ascending 128-bit address. -/
def runCoalesce6 : List ip6Net → List ip6Net
  | [] => []
  | h :: t => h :: coalesce6 h.mask h.addr t

/-- `collapse6` on the typed representation, parameterized by the map
enumeration order `g`. -/
def collapse6With (g : List ip6Net → List ip6Net) (inp : List ip6Net) : List ip6Net :=
  let m := collapse6Loop (300 * inp.length + 300) inp.reverse []
  runCoalesce6 (List.insertionSort (fun a b => a.addr ≤ b.addr) (g (m.map (fun p => p.2))))

/-- The canonical run of `collapse6`: map enumeration in insertion order. -/
def collapse6 : List ip6Net → List ip6Net := collapse6With id

/-! ## The generic `net.IPNet` level -/

/-- Model of Go's `net.IPNet`: the address bytes (big-endian, length 4 or
16), and the mask rendered by its `Size()` as `(ones, bits)` where `bits`
is eight times the mask's byte length. -/
structure IPNet where
  ip : List Nat
  ones : Nat
  bits : Nat
deriving DecidableEq

/-- Semantics of Go stdlib `net.IP.To4() != nil`: true for a 4-byte
address, and for a 16-byte address in the IPv4-mapped form
`::ffff:a.b.c.d` (first ten bytes zero, then `0xff, 0xff`). -/
def isV4 (ip : List Nat) : Bool :=
  decide (ip.length = 4) ||
    (decide (ip.length = 16) && decide (ip.take 12 = [0, 0, 0, 0, 0, 0, 0, 0, 0, 0, 255, 255]))

/-- Big-endian byte-list to natural number. -/
def beBytesToNat (bs : List Nat) : Nat := bs.foldl (fun acc b => acc * 256 + b % 256) 0

/-- Natural number to `len` big-endian bytes. -/
def natToBytes (len x : Nat) : List Nat :=
  (List.range len).map (fun i => x / 256 ^ (len - 1 - i) % 256)

/-- Modelled from the spec: `to32`, reading a v4 address (its last four
bytes when stored in 16-byte mapped form) as a big-endian `uint32`. -/
def to32 (ip : List Nat) : Nat :=
  beBytesToNat (if ip.length = 16 then ip.drop 12 else ip)

/-- Modelled from the spec: `to128`, reading 16 address bytes as a
big-endian `uint128`. -/
def to128 (ip : List Nat) : Nat := beBytesToNat ip

/-- `newIP4Net` from `collapse.go`: `ones, _ := ipN.Mask.Size();
ip4Net{to32(ipN.IP), uint8(ones)}`. -/
def newIP4Net (n : IPNet) : ip4Net := { addr := to32 n.ip, plen := n.ones % 256 }

/-- `newIP6Net` from `collapse.go`. -/
def newIP6Net (n : IPNet) : ip6Net := { addr := to128 n.ip, plen := n.ones % 256 }

/-- `ip4Net.asNet` from `collapse.go`: renders the (unmasked) address into
four big-endian bytes and the mask `n.mask()` into a 4-byte CIDR mask, whose
`Size()` is `(prefix, 32)`. -/
def ip4Net.asNet (n : ip4Net) : IPNet :=
  { ip := natToBytes 4 n.addr, ones := n.plen, bits := 32 }

/-- `ip6Net.asNet` from `collapse.go`. -/
def ip6Net.asNet (n : ip6Net) : IPNet :=
  { ip := natToBytes 16 n.addr, ones := n.plen, bits := 128 }

/-- `collapse4` of `collapse.go` at the `net.IPNet` level. -/
def collapse4N (toMerge : List IPNet) : List IPNet :=
  (collapse4 (toMerge.map newIP4Net)).map ip4Net.asNet

/-- `collapse6` of `collapse.go` at the `net.IPNet` level. -/
def collapse6N (toMerge : List IPNet) : List IPNet :=
  (collapse6 (toMerge.map newIP6Net)).map ip6Net.asNet

/-- `Collapse` from `collapse.go`: empty input returns `nil`; the family of
every network is compared with the first one's and a mismatch panics
(modelled as `none`); otherwise dispatch on the first network's family. -/
def Collapse (toMerge : List IPNet) : Option (List IPNet) :=
  match toMerge with
  | [] => some []
  | h :: t =>
    let four := isV4 h.ip
    if t.all (fun x => isV4 x.ip == four) then
      some (if four then collapse4N (h :: t) else collapse6N (h :: t))
    else none

/-! ## `Supernet` and `Broadcast` -/

/-- `Supernet` from the second source file: panics (modelled as `none`) when
`newPrefix < 0 || newPrefix > ones || newPrefix > bits`.  On the v4 path the
address is masked with `(1<<newPrefix - 1) << (bits - newPrefix)` in
`uint32` arithmetic.  On the v6 path the Go code calls the value-receiver
methods `mask.Lsh(...)`, `mask.Minus(...)`, `mask.Lsh(...)` and
`ip.And(mask)` as bare statements: since `uint128` operations are pure and
return new values (spec §4.1), every one of those results is discarded and
the address is rendered unmasked. -/
def Supernet (n : IPNet) (newPrefix : Int) : Option IPNet :=
  if newPrefix < 0 ∨ newPrefix > (n.ones : Int) ∨ newPrefix > (n.bits : Int) then none
  else
    let p := newPrefix.toNat
    if isV4 n.ip then
      let ip := to32 n.ip
      let ip := ip &&& shl32 (dec32 (bit32 p)) (n.bits - p)
      some { ip := natToBytes 4 ip, ones := p, bits := n.bits }
    else
      let ip := to128 n.ip
      let mask : Nat := 1
      let _ := lsh128 mask p          -- Go: mask.Lsh(uint(newPrefix)) — result discarded
      let _ := minus128 mask 1        -- Go: mask.Minus(uint128{0, 1}) — result discarded
      let _ := lsh128 mask (n.bits - p) -- Go: mask.Lsh(uint(bits - newPrefix)) — result discarded
      let _ := and128 ip mask         -- Go: ip.And(mask) — result discarded
      some { ip := natToBytes 16 ip, ones := p, bits := n.bits }

/-- `Broadcast` from the second source file, returning the address bytes.
On the v4 path the host bits are set with `ip |= 1<<(bits-ones) - 1` and the
result written out.  On the v6 path the Go code calls the value-receiver
methods `hostMask.Lsh(...)`, `hostMask.Minus(...)` and `ip.Or(hostMask)` as
bare statements, discarding every result, so the copied input bytes are
returned unchanged. -/
def Broadcast (a : IPNet) : List Nat :=
  if isV4 a.ip then
    let ip := to32 a.ip
    let ip := ip ||| dec32 (bit32 (a.bits - a.ones))
    natToBytes 4 ip
  else
    let ip := to128 a.ip
    let hostMask : Nat := 1
    let _ := lsh128 hostMask (a.bits - a.ones) -- Go: hostMask.Lsh(uint(bits - ones)) — discarded
    let _ := minus128 hostMask 1               -- Go: hostMask.Minus(uint128{0, 1}) — discarded
    let _ := or128 ip hostMask                 -- Go: ip.Or(hostMask) — discarded
    a.ip

/-! ## Spec-side notions used to state the claims -/

/-- Written from the spec's words (§3): the immediate parent of a network is
the network one prefix-length up whose coverage contains it — i.e. the
address masked to the decremented prefix length.  This is the spec's notion
of "immediate parent", to be compared with the code's `ip4Net.super`. -/
def specImmediateParent (n : ip4Net) : ip4Net :=
  { addr := n.addr &&& ip4Net.mask { addr := n.addr, plen := n.plen - 1 },
    plen := n.plen - 1 }

/-- Coverage at the `IPNet` level for a v4 network. -/
def covers4N (n : IPNet) (x : Nat) : Bool := covers4 (newIP4Net n) x

/-- An address covered by some v4 network of an `IPNet` list. -/
def coversAny4N (l : List IPNet) (x : Nat) : Bool := l.any (fun n => covers4N n x)

/-! ## Structural lemmas about the collapse engine -/

/-- Invariant of the `supers` map: every stored value's `super()` is exactly
the key it is stored under, and the keys are pairwise distinct. -/
def SupersInv (m : List (ip4Net × ip4Net)) : Prop :=
  (∀ p ∈ m, ip4Net.super p.2 = p.1) ∧ (m.map Prod.fst).Nodup

theorem supersInv_nil : SupersInv [] := ⟨fun p hp => absurd hp (List.not_mem_nil p), List.nodup_nil⟩

theorem collapse4Loop_inv (fuel : Nat) :
    ∀ (stack : List ip4Net) (m : List (ip4Net × ip4Net)),
      SupersInv m → SupersInv (collapse4Loop fuel stack m) := by
  induction fuel with
  | zero => intro stack m hm; simpa [collapse4Loop] using hm
  | succ f ih =>
    intro stack m hm
    cases stack with
    | nil => simpa [collapse4Loop] using hm
    | cons n rest =>
      simp only [collapse4Loop]
      split
      · next heq =>
        apply ih
        have hnone : m.find? (fun p => decide (p.1 = n.super)) = none := by
          cases hfind : m.find? (fun p => decide (p.1 = n.super)) with
          | none => rfl
          | some p => rw [alistFind, hfind] at heq; simp at heq
        have hkeys : ∀ p ∈ m, p.1 ≠ n.super := by
          intro p hp
          simpa using List.find?_eq_none.mp hnone p hp
        constructor
        · intro p hp
          rcases List.mem_append.mp hp with h | h
          · exact hm.1 p h
          · have : p = (n.super, n) := by simpa using h
            rw [this]
        · rw [List.map_append]
          refine List.nodup_append.mpr ⟨hm.2, by simp, ?_⟩
          intro a ha hb
          have hb' : a = n.super := by simpa using hb
          rcases List.mem_map.mp ha with ⟨p, hp, hpa⟩
          exact hkeys p hp (hpa.trans hb')
      · split
        · exact ih rest m hm
        · apply ih
          constructor
          · intro p hp
            exact hm.1 p (List.mem_of_mem_filter hp)
          · exact List.Nodup.sublist ((List.filter_sublist m).map Prod.fst) hm.2

theorem coalesce4_sublist :
    ∀ (l : List ip4Net) (lm la : Nat), (coalesce4 lm la l).Sublist l := by
  intro l
  induction l with
  | nil => intro lm la; simp [coalesce4]
  | cons h t ih =>
    intro lm la
    simp only [coalesce4]
    split
    · exact (ih lm la).cons h
    · exact (ih h.mask h.addr).cons₂ h

theorem runCoalesce4_sublist (l : List ip4Net) : (runCoalesce4 l).Sublist l := by
  cases l with
  | nil => simp [runCoalesce4]
  | cons h t => exact (coalesce4_sublist t h.mask h.addr).cons₂ h

/-! ## The claims -/

/-- C1 — Coverage preservation fails on the code.  For the homogeneous IPv4
input `[10.0.0.16/16, 10.0.0.0/24]` (the /16 network carries host bits,
which the spec explicitly allows for leaf inputs), `Collapse` returns just
`10.0.0.0/24`: the final coalescing pass drops the /16 because its unmasked
address matches the /24's range.  The address `10.0.255.0` is covered by the
input but not by the output, so the union of covered ranges shrinks. -/
theorem c1_coverage_loss :
    Collapse [⟨[10, 0, 0, 16], 16, 32⟩, ⟨[10, 0, 0, 0], 24, 32⟩] =
      some [⟨[10, 0, 0, 0], 24, 32⟩] ∧
    coversAny4N [⟨[10, 0, 0, 16], 16, 32⟩, ⟨[10, 0, 0, 0], 24, 32⟩] 167837440 = true ∧
    coversAny4N [⟨[10, 0, 0, 0], 24, 32⟩] 167837440 = false := by
  constructor
  · rfl
  · exact ⟨rfl, rfl⟩

/-- C2 — `Supernet` masks correctly on the IPv4 path
(`Supernet(10.0.5.0/24, 22) = 10.0.4.0/22`), but on the IPv6 path every
`uint128` masking operation's result is discarded (the methods are pure,
value-receiver operations called as bare statements), so the address is
returned unmasked: `Supernet(2001:db8:abcd::/48, 32)` keeps the
`ab cd` bytes, e.g. bit 88 — a host bit for a /32 of width 128 — stays set. -/
theorem c2_supernet_v6_unmasked :
    Supernet ⟨[10, 0, 5, 0], 24, 32⟩ 22 = some ⟨[10, 0, 4, 0], 22, 32⟩ ∧
    Supernet ⟨[32, 1, 13, 184, 171, 205, 0, 0, 0, 0, 0, 0, 0, 0, 0, 0], 48, 128⟩ 32 =
      some ⟨[32, 1, 13, 184, 171, 205, 0, 0, 0, 0, 0, 0, 0, 0, 0, 0], 32, 128⟩ ∧
    (to128 [32, 1, 13, 184, 171, 205, 0, 0, 0, 0, 0, 0, 0, 0, 0, 0]).testBit 88 = true := by
  exact ⟨rfl, rfl, rfl⟩

/-- C3 — `Broadcast` sets the host bits on the IPv4 path
(`Broadcast(10.0.0.0/24) = 10.0.0.255`), but on the IPv6 path the result of
`ip.Or(hostMask)` is discarded, so the address is returned with no host bit
set: `Broadcast(2001:db8::/32)` is `2001:db8::`, not the all-host-bits-set
address the claim requires. -/
theorem c3_broadcast_v6_unset :
    Broadcast ⟨[10, 0, 0, 0], 24, 32⟩ = [10, 0, 0, 255] ∧
    Broadcast ⟨[32, 1, 13, 184, 0, 0, 0, 0, 0, 0, 0, 0, 0, 0, 0, 0], 32, 128⟩ =
      [32, 1, 13, 184, 0, 0, 0, 0, 0, 0, 0, 0, 0, 0, 0, 0] ∧
    [(32 : Nat), 1, 13, 184, 0, 0, 0, 0, 0, 0, 0, 0, 0, 0, 0, 0] ≠
      [32, 1, 13, 184, 255, 255, 255, 255, 255, 255, 255, 255, 255, 255, 255, 255] := by
  exact ⟨rfl, rfl, by decide⟩

/-- C4 (counterexample) — `super` does NOT fully re-mask: the super of the
leaf network `10.0.0.3/24` is `10.0.0.3/23`, whose address still has bit 0
set although bit 0 lies beyond the new prefix length 23.  This refutes the
claim that no bits beyond `super(n).prefixLength` remain set. -/
theorem c4_counterexample :
    ip4Net.super ⟨167772163, 24⟩ = ⟨167772163, 23⟩ ∧
    (ip4Net.super ⟨167772163, 24⟩).addr.testBit 0 = true ∧
    0 < 32 - (ip4Net.super ⟨167772163, 24⟩).plen := by
  exact ⟨rfl, rfl, by decide⟩

/-- C4 (amended) — `super` clears exactly the single bit at position
`bitwidth − prefixLength` and decrements the prefix length; every other bit
of the 32- or 128-bit address — including host bits below that position — is
left unchanged.  Stated for both the IPv4 and IPv6 typed representations. -/
theorem c4_super_single_bit :
    (∀ n : ip4Net, 1 ≤ n.plen → n.plen ≤ 32 →
      n.super.plen = n.plen - 1 ∧
      n.super.addr.testBit (32 - n.plen) = false ∧
      ∀ j, j < 32 → j ≠ 32 - n.plen → n.super.addr.testBit j = n.addr.testBit j) ∧
    (∀ n : ip6Net, 1 ≤ n.plen → n.plen ≤ 128 →
      n.super.plen = n.plen - 1 ∧
      n.super.addr.testBit (128 - n.plen) = false ∧
      ∀ j, j < 128 → j ≠ 128 - n.plen → n.super.addr.testBit j = n.addr.testBit j) := by
  constructor
  · intro n h1 h2
    have hs : shiftAmt4 n.plen = 32 - n.plen := by unfold shiftAmt4; omega
    have hbit : bit32 (32 - n.plen) = 2 ^ (32 - n.plen) := by
      unfold bit32 w32
      exact Nat.mod_eq_of_lt (Nat.pow_lt_pow_right (by norm_num) (by omega))
    have hmask : ∀ i, (w32 - 1).testBit i = decide (i < 32) := fun i =>
      Nat.testBit_two_pow_sub_one 32 i
    refine ⟨by simp only [ip4Net.super]; omega, ?_, ?_⟩
    · have hlt : 32 - n.plen < 32 := by omega
      simp [ip4Net.super, hs, hbit, hmask, Nat.testBit_land, Nat.testBit_xor,
        Nat.testBit_two_pow, hlt]
    · intro j hj hjne
      have hne : ¬(32 - n.plen = j) := fun h => hjne h.symm
      simp [ip4Net.super, hs, hbit, hmask, Nat.testBit_land, Nat.testBit_xor,
        Nat.testBit_two_pow, hj, hne]
  · intro n h1 h2
    have h64 : (2 : Nat) ^ 64 = 18446744073709551616 := by norm_num
    have hp : n.plen % 256 = n.plen := by omega
    have hs : sub64 128 (n.plen % 256) = 128 - n.plen := by
      unfold sub64; rw [hp, h64]; omega
    have hlsh : lsh128 1 (128 - n.plen) = 2 ^ (128 - n.plen) := by
      unfold lsh128 w128
      rw [if_neg (by omega), one_mul]
      exact Nat.mod_eq_of_lt (Nat.pow_lt_pow_right (by norm_num) (by omega))
    have hnot : not128 (2 ^ (128 - n.plen)) = 2 ^ (128 - n.plen) ^^^ (w128 - 1) := by
      unfold not128 w128
      rw [Nat.mod_eq_of_lt (Nat.pow_lt_pow_right (by norm_num) (by omega))]
    have hmask : ∀ i, (w128 - 1).testBit i = decide (i < 128) := fun i =>
      Nat.testBit_two_pow_sub_one 128 i
    refine ⟨by simp only [ip6Net.super]; omega, ?_, ?_⟩
    · have hlt : 128 - n.plen < 128 := by omega
      simp [ip6Net.super, and128, hs, hlsh, hnot, hmask, Nat.testBit_land, Nat.testBit_xor,
        Nat.testBit_two_pow, hlt]
    · intro j hj hjne
      have hne : ¬(128 - n.plen = j) := fun h => hjne h.symm
      simp [ip6Net.super, and128, hs, hlsh, hnot, hmask, Nat.testBit_land, Nat.testBit_xor,
        Nat.testBit_two_pow, hj, hne]

/-- C4 (witness) — the amended statement at the concrete networks
`10.0.0.3/24` (v4) and `5/64` (v6). -/
theorem c4_witness :
    ((ip4Net.super ⟨167772163, 24⟩).plen = 24 - 1 ∧
      (ip4Net.super ⟨167772163, 24⟩).addr.testBit (32 - 24) = false ∧
      ∀ j, j < 32 → j ≠ 32 - 24 →
        (ip4Net.super ⟨167772163, 24⟩).addr.testBit j = (167772163 : Nat).testBit j) ∧
    ((ip6Net.super ⟨5, 64⟩).plen = 64 - 1 ∧
      (ip6Net.super ⟨5, 64⟩).addr.testBit (128 - 64) = false ∧
      ∀ j, j < 128 → j ≠ 128 - 64 →
        (ip6Net.super ⟨5, 64⟩).addr.testBit j = (5 : Nat).testBit j) :=
  ⟨c4_super_single_bit.1 ⟨167772163, 24⟩ (by decide) (by decide),
   c4_super_single_bit.2 ⟨5, 64⟩ (by decide) (by decide)⟩

/-- C5 (counterexample) — the code has no terminal treatment for a popped
prefix-0 entry: running the work loop on the single global network `0/0`
shows that `super` IS computed on it (the `uint8` prefix wraps to 255) and
the entry is recorded in the `supers` map under that wrapped parent key —
not added "directly" to the surviving set with the parent step skipped. -/
theorem c5_counterexample :
    collapse4Loop 600 [⟨0, 0⟩] [] = [(ip4Net.super ⟨0, 0⟩, ⟨0, 0⟩)] ∧
    ip4Net.super ⟨0, 0⟩ = ⟨0, 255⟩ ∧ (ip4Net.super ⟨0, 0⟩).plen ≠ 0 := by
  exact ⟨rfl, rfl, by decide⟩

/-- C5 (amended) — a prefix-0 entry is passed to `super` like any other
(the one-bit mask `1 << 32` is zero in `uint32`, so the address is
unchanged, and the `uint8` prefix decrements to 255), it is stored under
that wrapped key, and — never colliding with a sibling — it survives to the
final set: collapsing a single prefix-0 network returns it unchanged. -/
theorem c5_prefix0_wraps (a : Nat) (h : a < w32) :
    ip4Net.super ⟨a, 0⟩ = ⟨a, 255⟩ ∧ collapse4 [⟨a, 0⟩] = [⟨a, 0⟩] := by
  constructor
  · have : a &&& (2 ^ 32 - 1) = a := by
      rw [Nat.and_pow_two_sub_one_eq_mod]
      exact Nat.mod_eq_of_lt h
    simp only [ip4Net.super, shiftAmt4, bit32, w32] at this ⊢
    norm_num
    exact this
  · rfl

/-- C5 (witness) — the amended statement at the concrete address 0. -/
theorem c5_witness : ip4Net.super ⟨0, 0⟩ = ⟨0, 255⟩ ∧ collapse4 [⟨0, 0⟩] = [⟨0, 0⟩] :=
  c5_prefix0_wraps 0 (by decide)

/-- C6 — order invariance fails on the code.  The two input lists are
permutations of each other (the same two networks `10.0.0.0/24` and
`10.0.0.0/23`, one containing the other), yet the canonical runs of
`Collapse` return `10.0.0.0/23` for one ordering and `10.0.0.0/24` for the
other: the two survivors tie on the sort key (same address), so the result
hinges on the order in which the `supers` map hands them to the sort. -/
theorem c6_order_variance :
    List.Perm
      [(⟨[10, 0, 0, 0], 24, 32⟩ : IPNet), ⟨[10, 0, 0, 0], 23, 32⟩]
      [⟨[10, 0, 0, 0], 23, 32⟩, ⟨[10, 0, 0, 0], 24, 32⟩] ∧
    Collapse [⟨[10, 0, 0, 0], 24, 32⟩, ⟨[10, 0, 0, 0], 23, 32⟩] =
      some [⟨[10, 0, 0, 0], 23, 32⟩] ∧
    Collapse [⟨[10, 0, 0, 0], 23, 32⟩, ⟨[10, 0, 0, 0], 24, 32⟩] =
      some [⟨[10, 0, 0, 0], 24, 32⟩] := by
  exact ⟨by decide, rfl, rfl⟩

/-- C7 (counterexample) — with the spec's own definition of "immediate
parent" (the containing network one prefix up, i.e. computed on the masked
address), minimality fails for host-bit inputs: `10.0.0.1/24` and
`10.0.1.0/24` both survive `Collapse` untouched, yet their immediate parent
is the same network `10.0.0.0/23` — the code compares unmasked `super`
keys, so it never merges them. -/
theorem c7_counterexample :
    Collapse [⟨[10, 0, 0, 1], 24, 32⟩, ⟨[10, 0, 1, 0], 24, 32⟩] =
      some [⟨[10, 0, 0, 1], 24, 32⟩, ⟨[10, 0, 1, 0], 24, 32⟩] ∧
    specImmediateParent (newIP4Net ⟨[10, 0, 0, 1], 24, 32⟩) =
      specImmediateParent (newIP4Net ⟨[10, 0, 1, 0], 24, 32⟩) := by
  exact ⟨rfl, rfl⟩

/-- C7 (amended) — no two entries of the output share the same code-derived
`super()` value (for inputs whose addresses are masked this coincides with
the spec's immediate parent).  Holds for every input, every fuel and every
admissible map enumeration order `g`: the `supers` map always maps distinct
keys to values whose `super()` is that key, and the output is a subsequence
of a permutation of the stored values. -/
theorem c7_no_shared_super (g : List ip4Net → List ip4Net)
    (hg : ∀ l : List ip4Net, (g l).Perm l) (inp : List ip4Net) :
    (collapse4With g inp).Pairwise (fun a b => ip4Net.super a ≠ ip4Net.super b) := by
  have hInv := collapse4Loop_inv (300 * inp.length + 300) inp.reverse [] supersInv_nil
  set m := collapse4Loop (300 * inp.length + 300) inp.reverse [] with hmdef
  have hvals : ((m.map Prod.snd).map ip4Net.super).Nodup := by
    rw [List.map_map]
    have hcongr : m.map (ip4Net.super ∘ Prod.snd) = m.map Prod.fst :=
      List.map_congr_left (fun p hp => hInv.1 p hp)
    rw [hcongr]
    exact hInv.2
  have hperm : ((g (m.map Prod.snd)).map ip4Net.super).Nodup :=
    (((hg (m.map Prod.snd)).map ip4Net.super).nodup_iff).mpr hvals
  have hsorted :
      ((List.insertionSort (fun a b => a.addr ≤ b.addr) (g (m.map Prod.snd))).map
        ip4Net.super).Nodup :=
    (((List.perm_insertionSort (fun a b => a.addr ≤ b.addr)
        (g (m.map Prod.snd))).map ip4Net.super).nodup_iff).mpr hperm
  have hout :
      ((runCoalesce4 (List.insertionSort (fun a b => a.addr ≤ b.addr)
          (g (m.map (fun p => p.2))))).map ip4Net.super).Nodup :=
    List.Nodup.sublist ((runCoalesce4_sublist _).map ip4Net.super) hsorted
  exact List.pairwise_map.mp hout

/-- C7 (witness) — the amended statement at the canonical enumeration and a
concrete input. -/
theorem c7_witness :
    (collapse4With id [⟨167772160, 24⟩]).Pairwise
      (fun a b => ip4Net.super a ≠ ip4Net.super b) :=
  c7_no_shared_super id (fun l => List.Perm.refl l) [⟨167772160, 24⟩]

/-- C8 — idempotence fails on the code.  For the homogeneous input
`[10.0.0.1/32, 10.0.0.1/24]` (host bits on the /24, allowed by the spec),
the canonical run of `Collapse` returns both networks; collapsing that
output again drops the /24 — its address masked by the preceding /32's full
mask now matches — leaving only the /32.  The second result is not a
permutation of the first, so `Collapse(Collapse(S))` differs from
`Collapse(S)` even up to reordering. -/
theorem c8_not_idempotent :
    Collapse [⟨[10, 0, 0, 1], 32, 32⟩, ⟨[10, 0, 0, 1], 24, 32⟩] =
      some [⟨[10, 0, 0, 1], 24, 32⟩, ⟨[10, 0, 0, 1], 32, 32⟩] ∧
    Collapse [⟨[10, 0, 0, 1], 24, 32⟩, ⟨[10, 0, 0, 1], 32, 32⟩] =
      some [⟨[10, 0, 0, 1], 32, 32⟩] ∧
    ¬ List.Perm [(⟨[10, 0, 0, 1], 32, 32⟩ : IPNet)]
        [⟨[10, 0, 0, 1], 24, 32⟩, ⟨[10, 0, 0, 1], 32, 32⟩] := by
  exact ⟨rfl, rfl, by decide⟩

/-- C9 — family guard: an empty input yields `some []` (no error), and any
input containing both a v4 network and a v6 network makes `Collapse` fail
fast (the Go panic, modelled as `none`) with no partial result. -/
theorem c9_family_guard :
    Collapse [] = some [] ∧
    ∀ (l : List IPNet) (a b : IPNet), a ∈ l → b ∈ l →
      isV4 a.ip = true → isV4 b.ip = false → Collapse l = none := by
  refine ⟨rfl, ?_⟩
  intro l a b ha hb h4 h6
  cases l with
  | nil => exact absurd ha (List.not_mem_nil a)
  | cons h t =>
    have hall : ¬(t.all (fun x => isV4 x.ip == isV4 h.ip) = true) := by
      intro hall
      by_cases hh : isV4 h.ip = true
      · have hbt : b ∈ t := by
          rcases List.mem_cons.mp hb with h' | h'
          · rw [h'] at h6; rw [h6] at hh; exact absurd hh (by decide)
          · exact h'
        have := List.all_eq_true.mp hall b hbt
        rw [h6, hh] at this
        exact absurd this (by decide)
      · have hh' : isV4 h.ip = false := by
          cases hv : isV4 h.ip
          · rfl
          · exact absurd hv hh
        have hat : a ∈ t := by
          rcases List.mem_cons.mp ha with h' | h'
          · rw [h'] at h4; rw [h4] at hh'; exact absurd hh' (by decide)
          · exact h'
        have := List.all_eq_true.mp hall a hat
        rw [h4, hh'] at this
        exact absurd this (by decide)
    simp only [Collapse]
    rw [if_neg hall]

/-- C9 (witness) — the family guard at a concrete mixed-family input. -/
theorem c9_witness :
    Collapse [⟨[10, 0, 0, 1], 24, 32⟩,
      ⟨[32, 1, 13, 184, 0, 0, 0, 0, 0, 0, 0, 0, 0, 0, 0, 0], 32, 128⟩] = none :=
  c9_family_guard.2 _ ⟨[10, 0, 0, 1], 24, 32⟩
    ⟨[32, 1, 13, 184, 0, 0, 0, 0, 0, 0, 0, 0, 0, 0, 0, 0], 32, 128⟩
    (by simp) (by simp) (by decide) (by decide)

end Ipx
